import Mathlib

/-!
Shallow embedding of `src/cierre_sensei_report.py` (the Cierre Sensei
closing-cost report renderer) and proofs about it.

Modelling conventions:
* Python floats are modelled as exact rationals (`ℚ`); Python's `format`
  rounding (round-half-to-even) is modelled on the rational value.
* The PIL drawing surface is modelled as a list of drawing operations
  (`DrawOp`) accumulated in issue order on an `RImage` record.
* Font loading (`ImageFont.truetype`) and text measurement
  (`draw.textbbox`) are external collaborators, modelled by an `Env`
  record of oracles; `ImageFont.truetype` failing is an oracle returning
  `none`.
* `date.today()` is modelled by an explicit `today : Date` argument.
* `img.save(filename)` is modelled by recording the path and saved image
  in the `RenderOutput` record.
-/

namespace CierreSensei

/-- RGB color triple, as in PIL `(r, g, b)` tuples. -/
abbrev Color := ℕ × ℕ × ℕ

/-- A font handle: either a TrueType font resolved by name and size
(`ImageFont.truetype`), or the built-in bitmap font
(`ImageFont.load_default()`). -/
inductive Font
  | truetype (name : String) (size : ℕ)
  | loadDefault
  deriving DecidableEq

/-- External collaborators of the renderer: the font-loading service and
the text-measurement facility of the drawing surface.  `lookup n s = none`
models `ImageFont.truetype(n, size=s)` raising; `textWidth` models
`bbox[2] - bbox[0]` of `draw.textbbox`; `defaultSize` models the height
estimated from `textbbox` for the default bitmap font in
`_get_font_size`. -/
structure Env where
  lookup : String → ℕ → Option Font
  textWidth : Font → String → ℤ
  defaultSize : ℕ

/-- A calendar date, as used by `datetime.date.today()`. -/
structure Date where
  month : ℕ
  day : ℕ
  year : ℕ
  deriving DecidableEq

/-- One drawing operation issued against the PIL `ImageDraw` surface. -/
inductive DrawOp
  | text (x y : ℤ) (s : String) (font : Font) (fill : Color)
  | line (x1 y1 x2 y2 : ℤ) (fill : Color) (width : ℕ)
  deriving DecidableEq

/-- The raster image: fixed pixel dimensions, background fill, and the
ordered list of drawing operations applied to it. -/
structure RImage where
  width : ℕ
  height : ℕ
  bg : Color
  ops : List DrawOp
  deriving DecidableEq

/-- Result of one render call: the file write (`img.save(filename)`,
recorded as path plus saved image) and the returned image. -/
structure RenderOutput where
  savedPath : String
  savedImg : RImage
  returned : RImage
  deriving DecidableEq

/-- The theme palette picked at the top of `generate_cierre_sensei_png`. -/
structure Palette where
  bg_color : Color
  title_color : Color
  text_color : Color
  separator_color : Color
  box_outline : Color
  deriving DecidableEq

/-- Theme dispatch from `generate_cierre_sensei_png` lines 71-84:
`if theme == "light": ... else: ...` (dark palette is the `else` arm). -/
def themePalette (theme : String) : Palette :=
  if theme = "light" then
    ⟨(255, 255, 255), (0, 0, 0), (0, 0, 0), (100, 100, 100), (0, 0, 0)⟩
  else
    ⟨(30, 50, 80), (100, 150, 255), (255, 255, 255), (150, 180, 220), (150, 180, 220)⟩

/-- Candidate font names tried by `_load_font`, in order. -/
def fontCandidates (bold : Bool) : List String :=
  if bold then ["DejaVuSans-Bold.ttf", "Arial Bold.ttf", "Arial-Bold.ttf"]
  else ["DejaVuSans.ttf", "Arial.ttf"]

/-- The `for name in font_candidates: try ... except: continue` loop of
`_load_font`: first successful lookup wins; on exhaustion fall back to
the built-in default font. -/
def loadFontFrom (lookup : String → ℕ → Option Font) (size : ℕ) : List String → Font
  | [] => Font.loadDefault
  | n :: rest =>
    match lookup n size with
    | some f => f
    | none => loadFontFrom lookup size rest

/-- `_load_font(size, bold)` from the source. -/
def load_font (env : Env) (size : ℕ) (bold : Bool) : Font :=
  loadFontFrom env.lookup size (fontCandidates bold)

/-- `_get_font_size(font)`: `font.size` for TrueType fonts; for the
default bitmap font (no `.size` attribute) the height estimated via
`textbbox`, modelled by the environment oracle. -/
def get_font_size (env : Env) : Font → ℕ
  | Font.truetype _ s => s
  | Font.loadDefault => env.defaultSize

/-- The character for a single decimal digit `d < 10`. -/
def digitChar (d : ℕ) : Char := Char.ofNat (48 + d)

/-- Decimal digit characters of a natural number, most significant first,
no leading zeros (the rendering of Python's `str`/`format` for a
nonnegative integer). -/
def natDigits (n : ℕ) : List Char :=
  if _h : n < 10 then [digitChar n]
  else natDigits (n / 10) ++ [digitChar (n % 10)]
termination_by n
decreasing_by exact Nat.div_lt_self (by omega) (by omega)

/-- Decimal string of a natural number. -/
def natStr (n : ℕ) : String := (natDigits n).asString

/-- Group a reversed digit list into blocks of three (least significant
block first), as the thousands grouping of Python's `,` format spec. -/
def groupThree : List Char → List (List Char)
  | [] => []
  | [a] => [[a]]
  | [a, b] => [[a, b]]
  | a :: b :: c :: rest => [a, b, c] :: groupThree rest

/-- Insert thousands separators into a digit list (most significant
first), as Python's `{:,}` format spec does. -/
def commaGroup (l : List Char) : List Char :=
  List.intercalate [','] (((groupThree l.reverse).map List.reverse).reverse)

/-- Round a rational to the nearest integer, ties to even: the rounding
used by Python's `format` (`.0f`, `.1f`) on the modelled exact value. -/
def roundHalfEven (q : ℚ) : ℤ :=
  let n := ⌊q⌋
  let r := q - (n : ℚ)
  if r < 1 / 2 then n
  else if 1 / 2 < r then n + 1
  else if n % 2 = 0 then n else n + 1

/-- `fmt_currency(val)` from the source: `"${:,.0f}".format(val)` — a
dollar sign, then the rounded value with thousands separators and no
decimal places. -/
def fmt_currency (val : ℚ) : String :=
  let z := roundHalfEven val
  let ds := commaGroup (natDigits z.natAbs)
  if z < 0 then ('$' :: '-' :: ds).asString else ('$' :: ds).asString

/-- Python's `"{:.1f}".format(q)` on the modelled exact value: rounded to
one decimal place, always printing exactly one digit after the point. -/
def pyFormat1f (q : ℚ) : String :=
  let z := roundHalfEven (10 * q)
  (if z < 0 then "-" else "") ++ (natDigits (z.natAbs / 10)).asString
    ++ "." ++ (natDigits (z.natAbs % 10)).asString

/-- The amount text of one fee line, source lines 151-154: a single
formatted value when the range collapses, otherwise both values joined
by a hyphen surrounded by spaces. -/
def amountText (mn mx : ℚ) : String :=
  if mn = mx then fmt_currency mn
  else fmt_currency mn ++ " - " ++ fmt_currency mx

/-- Source line 175: the estimated-range totals line. -/
def rangeText (mn mx : ℚ) : String :=
  "Estimated Range: " ++ fmt_currency mn ++ " - " ++ fmt_currency mx

/-- Source line 180: the effective-rate totals line. -/
def rateText (mn mx : ℚ) : String :=
  "Effective Rate: " ++ pyFormat1f mn ++ "% - " ++ pyFormat1f mx ++ "%"

/-- Source lines 102-105: use the supplied `prepared_date` unchanged, or
derive `f"{today.month}/{today.day}/{today.year}"` from today's date. -/
def resolvePreparedDate (pd : Option String) (today : Date) : String :=
  match pd with
  | some s => s
  | none => natStr today.month ++ "/" ++ natStr today.day ++ "/" ++ natStr today.year

/-- The full argument list of `generate_cierre_sensei_png`.  The ordered
dict `purchase_summary` is modelled as an association list in insertion
order; `line_items` as tuples `(description, min, max, notes)`. -/
structure ReportArgs where
  purchase_summary : List (String × String)
  addons : List String
  line_items : List (String × ℚ × ℚ × String)
  est_min : ℚ
  est_max : ℚ
  eff_min_pct : ℚ
  eff_max_pct : ℚ
  filename : String
  prepared_date : Option String
  theme : String
  sponsor_text : Option String

/-- Left margin, source line 88. -/
def margin_x : ℤ := 120

/-- Top margin, source line 89. -/
def margin_y : ℤ := 100

/-- One iteration of the purchase-summary loop (source lines 127-130):
draw `f"{key}: {value}"` at the left margin and advance the cursor. -/
def psStep (env : Env) (normal_font : Font) (pal : Palette)
    (st : ℤ × List DrawOp) (kv : String × String) : ℤ × List DrawOp :=
  (st.1 + (get_font_size env normal_font : ℤ) + 12,
   st.2 ++ [DrawOp.text margin_x st.1 (kv.1 ++ ": " ++ kv.2) normal_font pal.text_color])

/-- One iteration of the fee-breakdown loop (source lines 146-165): draw
the description, the (possibly collapsed) amount range at `margin_x + 500`,
the parenthesized note at `margin_x + 900` when non-empty, and advance
the cursor. -/
def feeStep (env : Env) (normal_font small_font : Font) (pal : Palette)
    (st : ℤ × List DrawOp) (it : String × ℚ × ℚ × String) : ℤ × List DrawOp :=
  let ops := st.2 ++ [DrawOp.text margin_x st.1 it.1 normal_font pal.text_color]
  let ops := ops ++
    [DrawOp.text (margin_x + 500) st.1 (amountText it.2.1 it.2.2.1) normal_font pal.text_color]
  let ops := if it.2.2.2 = "" then ops
    else ops ++ [DrawOp.text (margin_x + 900) st.1 ("(" ++ it.2.2.2 ++ ")") small_font pal.text_color]
  (st.1 + (get_font_size env normal_font : ℤ) + 16, ops)

/-- One iteration of the add-ons loop (source lines 194-196): draw
`f"- {item}"` indented by 40 pixels and advance the cursor. -/
def addonStep (env : Env) (normal_font : Font) (pal : Palette)
    (st : ℤ × List DrawOp) (item : String) : ℤ × List DrawOp :=
  (st.1 + (get_font_size env normal_font : ℤ) + 12,
   st.2 ++ [DrawOp.text (margin_x + 40) st.1 ("- " ++ item) normal_font pal.text_color])

/-- The rendering sequence of `generate_cierre_sensei_png` up to and
including the "Fee Breakdown:" heading (source lines 107-141): centered
title, separator, purchase-summary lines, separator, section heading.
Returns the cursor and drawing operations so far. -/
def renderBefore (env : Env) (W : ℕ) (args : ReportArgs) : ℤ × List DrawOp :=
  let pal := themePalette args.theme
  let title_font := load_font env 72 true
  let section_font := load_font env 42 true
  let normal_font := load_font env 32 false
  let y : ℤ := margin_y
  let title_text := "Estimated Closing Costs (MX Real Estate)"
  let title_w := env.textWidth title_font title_text
  let ops := [DrawOp.text (Int.fdiv ((W : ℤ) - title_w) 2) y title_text title_font pal.title_color]
  let y := y + (get_font_size env title_font : ℤ) + 60
  let ops := ops ++ [DrawOp.line margin_x y ((W : ℤ) - margin_x) y pal.separator_color 2]
  let y := y + 40
  let st := args.purchase_summary.foldl (psStep env normal_font pal) (y, ops)
  let y := st.1 + 30
  let ops := st.2 ++ [DrawOp.line margin_x y ((W : ℤ) - margin_x) y pal.separator_color 2]
  let y := y + 40
  let ops := ops ++ [DrawOp.text margin_x y "Fee Breakdown:" section_font pal.title_color]
  (y + (get_font_size env section_font : ℤ) + 20, ops)

/-- The rendering sequence of `generate_cierre_sensei_png` after the
fee-breakdown loop (source lines 167-227): separator, totals lines,
separator, add-ons section, optional sponsor line, footer, then
`img.save(filename)` and `return img`. -/
def renderAfter (env : Env) (today : Date) (W H : ℕ) (args : ReportArgs)
    (st : ℤ × List DrawOp) : RenderOutput :=
  let pal := themePalette args.theme
  let section_font := load_font env 42 true
  let normal_font := load_font env 32 false
  let small_font := load_font env 28 false
  let totals_font := load_font env 38 true
  let pd := resolvePreparedDate args.prepared_date today
  let y := st.1 + 30
  let ops := st.2 ++ [DrawOp.line margin_x y ((W : ℤ) - margin_x) y pal.separator_color 2]
  let y := y + 40
  let ops := ops ++ [DrawOp.text margin_x y (rangeText args.est_min args.est_max) totals_font pal.text_color]
  let y := y + (get_font_size env totals_font : ℤ) + 20
  let ops := ops ++ [DrawOp.text margin_x y (rateText args.eff_min_pct args.eff_max_pct) totals_font pal.text_color]
  let y := y + (get_font_size env totals_font : ℤ) + 30
  let ops := ops ++ [DrawOp.line margin_x y ((W : ℤ) - margin_x) y pal.separator_color 2]
  let y := y + 40
  let ops := ops ++ [DrawOp.text margin_x y "Add-Ons Included:" section_font pal.title_color]
  let y := y + (get_font_size env section_font : ℤ) + 20
  let st2 := args.addons.foldl (addonStep env normal_font pal) (y, ops)
  let ops := st2.2
  let ops := match args.sponsor_text with
    | some s =>
      if s = "" then ops
      else ops ++ [DrawOp.text (Int.fdiv ((W : ℤ) - env.textWidth small_font s) 2)
        ((H : ℤ) - 140) s small_font pal.text_color]
    | none => ops
  let footer_y := (H : ℤ) - 80
  let ops := ops ++ [DrawOp.text margin_x footer_y ("Prepared: " ++ pd) small_font pal.text_color]
  let disclaimer := "Informational only; confirm with local professionals."
  let ops := ops ++ [DrawOp.text ((W : ℤ) - margin_x - env.textWidth small_font disclaimer)
    footer_y disclaimer small_font pal.text_color]
  let img : RImage := ⟨W, H, pal.bg_color, ops⟩
  ⟨args.filename, img, img⟩

/-- The whole body of `generate_cierre_sensei_png`, parameterized by the
canvas dimensions (the source hardcodes `WIDTH, HEIGHT = 1800, 2400` at
line 87). -/
def renderCore (env : Env) (today : Date) (W H : ℕ) (args : ReportArgs) : RenderOutput :=
  renderAfter env today W H args
    (args.line_items.foldl
      (feeStep env (load_font env 32 false) (load_font env 28 false) (themePalette args.theme))
      (renderBefore env W args))

/-- `generate_cierre_sensei_png` as in the source: the single-column
report on the fixed 1800 x 2400 canvas. -/
def generate_cierre_sensei_png (env : Env) (today : Date) (args : ReportArgs) : RenderOutput :=
  renderCore env today 1800 2400 args

/-- Modelled from the spec: the two supported size profiles of the
`sizeVariant` option.  Only the fixed-pixel mockup profile's source file
is under `src/`; the print profile and the `sizeVariant` dispatch live in
the repository's other renderer variants, which are not included. -/
inductive SizeVariant
  | print
  | mockup
  deriving DecidableEq

/-- Modelled from the spec: canvas pixel dimensions per size variant.
The mockup dimensions are the source's `WIDTH, HEIGHT = 1800, 2400`
(line 87, "matching mockup dimensions"); the print profile is a
print-page-sized canvas at high resolution (US letter at 300 dpi), whose
exact pixel constants are in a variant file not under `src/`. -/
def sizeDims : SizeVariant → ℕ × ℕ
  | SizeVariant.mockup => (1800, 2400)
  | SizeVariant.print => (2550, 3300)

/-- Modelled from the spec: the public entry point `render` with a
`sizeVariant` option selecting one of the two canvas size profiles; each
profile runs the same single-pass rendering routine on its own fixed
canvas dimensions. -/
def render (env : Env) (today : Date) (v : SizeVariant) (args : ReportArgs) : RenderOutput :=
  renderCore env today (sizeDims v).1 (sizeDims v).2 args

/-- A dynamically-typed Python value appearing in a line-item tuple. -/
inductive PyVal
  | pstr (s : String)
  | pnum (q : ℚ)
  deriving DecidableEq

/-- The tuple unpacking `for desc, min_v, max_v, notes in line_items:`
at source line 146, on a raw (unvalidated) tuple: a tuple that does not
have exactly four components raises `ValueError`; four components of the
wrong runtime types fail later in the iteration (`TypeError`). -/
def feeStepRaw (env : Env) (normal_font small_font : Font) (pal : Palette)
    (st : ℤ × List DrawOp) (tup : List PyVal) : Except String (ℤ × List DrawOp) :=
  match tup with
  | [a, b, c, d] =>
    match a, b, c, d with
    | PyVal.pstr desc, PyVal.pnum mn, PyVal.pnum mx, PyVal.pstr notes =>
      Except.ok (feeStep env normal_font small_font pal st (desc, mn, mx, notes))
    | _, _, _, _ => Except.error "TypeError"
  | _ => Except.error "ValueError: cannot unpack line item into desc, min_v, max_v, notes"

/-- `generate_cierre_sensei_png` on raw, unvalidated line-item tuples
(`raw_line_items` replaces `args.line_items`): the function performs no
input validation, so a malformed tuple raises out of the fee-breakdown
loop and no image is returned. -/
def renderRaw (env : Env) (today : Date) (W H : ℕ) (args : ReportArgs)
    (raw_line_items : List (List PyVal)) : Except String RenderOutput :=
  (raw_line_items.foldlM
      (feeStepRaw env (load_font env 32 false) (load_font env 28 false) (themePalette args.theme))
      (renderBefore env W args)).map
    (renderAfter env today W H args)

/-- Encode a well-formed line item as the raw tuple it came from. -/
def encodeItem (it : String × ℚ × ℚ × String) : List PyVal :=
  [PyVal.pstr it.1, PyVal.pnum it.2.1, PyVal.pnum it.2.2.1, PyVal.pstr it.2.2.2]

/-- The strings drawn by a list of drawing operations, in issue order. -/
def textsOf (ops : List DrawOp) : List String :=
  ops.filterMap (fun op =>
    match op with
    | DrawOp.text _ _ s _ _ => some s
    | DrawOp.line _ _ _ _ _ _ => none)

/-- The strings drawn for one fee line, in issue order. -/
def itemTexts (it : String × ℚ × ℚ × String) : List String :=
  it.1 :: amountText it.2.1 it.2.2.1 ::
    (if it.2.2.2 = "" then [] else ["(" ++ it.2.2.2 ++ ")"])

/-- The strings drawn for the optional sponsor line. -/
def sponsorTexts (sp : Option String) : List String :=
  match sp with
  | some s => if s = "" then [] else [s]
  | none => []

@[simp]
theorem textsOf_nil : textsOf [] = [] := rfl

@[simp]
theorem textsOf_text (x y : ℤ) (s : String) (f : Font) (c : Color) (rest : List DrawOp) :
    textsOf (DrawOp.text x y s f c :: rest) = s :: textsOf rest := rfl

@[simp]
theorem textsOf_line (x1 y1 x2 y2 : ℤ) (c : Color) (w : ℕ) (rest : List DrawOp) :
    textsOf (DrawOp.line x1 y1 x2 y2 c w :: rest) = textsOf rest := rfl

@[simp]
theorem textsOf_append (a b : List DrawOp) : textsOf (a ++ b) = textsOf a ++ textsOf b :=
  List.filterMap_append a b _

/-- The purchase-summary loop draws exactly the `key: value` strings, in
list order, after whatever was already drawn. -/
theorem psLoop_texts (env : Env) (f : Font) (pal : Palette) :
    ∀ (l : List (String × String)) (st : ℤ × List DrawOp),
      textsOf (l.foldl (psStep env f pal) st).2 =
        textsOf st.2 ++ l.map (fun kv => kv.1 ++ ": " ++ kv.2) := by
  intro l
  induction l with
  | nil => intro st; simp
  | cons x xs ih =>
    intro st
    rw [List.foldl_cons, ih]
    simp [psStep]

/-- The fee-breakdown loop draws exactly the per-item text blocks, in
list order, after whatever was already drawn. -/
theorem feeLoop_texts (env : Env) (nf sf : Font) (pal : Palette) :
    ∀ (l : List (String × ℚ × ℚ × String)) (st : ℤ × List DrawOp),
      textsOf (l.foldl (feeStep env nf sf pal) st).2 =
        textsOf st.2 ++ l.flatMap itemTexts := by
  intro l
  induction l with
  | nil => intro st; simp
  | cons x xs ih =>
    intro st
    rw [List.foldl_cons, ih, List.flatMap_cons]
    by_cases hn : x.2.2.2 = "" <;> simp [feeStep, itemTexts, hn]

/-- The add-ons loop draws exactly the `- item` strings, in list order,
after whatever was already drawn. -/
theorem addonLoop_texts (env : Env) (f : Font) (pal : Palette) :
    ∀ (l : List String) (st : ℤ × List DrawOp),
      textsOf (l.foldl (addonStep env f pal) st).2 =
        textsOf st.2 ++ l.map (fun a => "- " ++ a) := by
  intro l
  induction l with
  | nil => intro st; simp
  | cons x xs ih =>
    intro st
    rw [List.foldl_cons, ih]
    simp [addonStep]

/-- Strings drawn by the pre-fee-breakdown part of the render. -/
theorem renderBefore_texts (env : Env) (W : ℕ) (args : ReportArgs) :
    textsOf (renderBefore env W args).2 =
      "Estimated Closing Costs (MX Real Estate)" ::
        (args.purchase_summary.map (fun kv => kv.1 ++ ": " ++ kv.2) ++ ["Fee Breakdown:"]) := by
  simp [renderBefore, psLoop_texts]

/-- Strings drawn by the post-fee-breakdown part of the render. -/
theorem renderAfter_texts (env : Env) (today : Date) (W H : ℕ) (args : ReportArgs)
    (st : ℤ × List DrawOp) :
    textsOf (renderAfter env today W H args st).returned.ops =
      textsOf st.2 ++
        rangeText args.est_min args.est_max ::
          rateText args.eff_min_pct args.eff_max_pct ::
            "Add-Ons Included:" ::
              (args.addons.map (fun a => "- " ++ a) ++
               sponsorTexts args.sponsor_text ++
               ["Prepared: " ++ resolvePreparedDate args.prepared_date today,
                "Informational only; confirm with local professionals."]) := by
  cases hsp : args.sponsor_text with
  | none => simp [renderAfter, addonLoop_texts, sponsorTexts, hsp]
  | some s =>
    by_cases hs : s = "" <;> simp [renderAfter, addonLoop_texts, sponsorTexts, hsp, hs]

/-- The complete, ordered list of strings drawn by one render call. -/
theorem renderCore_texts (env : Env) (today : Date) (W H : ℕ) (args : ReportArgs) :
    textsOf (renderCore env today W H args).returned.ops =
      "Estimated Closing Costs (MX Real Estate)" ::
        (args.purchase_summary.map (fun kv => kv.1 ++ ": " ++ kv.2) ++
         "Fee Breakdown:" ::
           (args.line_items.flatMap itemTexts ++
            rangeText args.est_min args.est_max ::
              rateText args.eff_min_pct args.eff_max_pct ::
                "Add-Ons Included:" ::
                  (args.addons.map (fun a => "- " ++ a) ++
                   (sponsorTexts args.sponsor_text ++
                    ["Prepared: " ++ resolvePreparedDate args.prepared_date today,
                     "Informational only; confirm with local professionals."])))) := by
  rw [renderCore, renderAfter_texts, feeLoop_texts, renderBefore_texts]
  simp

theorem natDigits_def (n : ℕ) :
    natDigits n = if n < 10 then [digitChar n]
      else natDigits (n / 10) ++ [digitChar (n % 10)] := by
  by_cases h : n < 10 <;> rw [natDigits] <;> simp [h]

theorem natDigits_small {n : ℕ} (h : n < 10) : natDigits n = [digitChar n] := by
  rw [natDigits_def, if_pos h]

/-- `natDigits` never produces a leading `'0'` on a positive number:
the decimal rendering has no zero padding. -/
theorem natDigits_head : ∀ n : ℕ, 0 < n → ∃ c l, natDigits n = c :: l ∧ c ≠ '0' := by
  intro n
  induction n using Nat.strong_induction_on with
  | _ n ih =>
    intro hn
    by_cases h : n < 10
    · refine ⟨digitChar n, [], natDigits_small h, ?_⟩
      interval_cases n <;> decide
    · obtain ⟨c, l, heq, hne⟩ :=
        ih (n / 10) (Nat.div_lt_self hn (by omega)) (Nat.div_pos (by omega) (by omega))
      exact ⟨c, l ++ [digitChar (n % 10)],
        by rw [natDigits_def, if_neg h, heq]; rfl, hne⟩

/-- Every character produced by `natDigits` is a decimal digit character. -/
theorem natDigits_mem : ∀ n : ℕ, ∀ c ∈ natDigits n, ∃ d, d < 10 ∧ c = digitChar d := by
  intro n
  induction n using Nat.strong_induction_on with
  | _ n ih =>
    intro c hc
    by_cases h : n < 10
    · rw [natDigits_small h] at hc
      simp at hc
      exact ⟨n, h, hc⟩
    · rw [natDigits_def, if_neg h] at hc
      rcases List.mem_append.mp hc with h1 | h2
      · exact ih (n / 10) (Nat.div_lt_self (by omega) (by omega)) c h1
      · simp at h2
        exact ⟨n % 10, Nat.mod_lt _ (by omega), h2⟩

theorem digitChar_isDigit : ∀ d : ℕ, d < 10 → (digitChar d).isDigit = true := by decide

theorem digitChar_ne_dot : ∀ d : ℕ, d < 10 → digitChar d ≠ '.' := by decide

/-- Rounding an exact integer changes nothing. -/
theorem roundHalfEven_intCast (z : ℤ) : roundHalfEven (z : ℚ) = z := by
  simp only [roundHalfEven, Int.floor_intCast]
  norm_num

theorem roundHalfEven_nonneg (q : ℚ) (hq : 0 ≤ q) : 0 ≤ roundHalfEven q := by
  have h0 : (0 : ℤ) ≤ ⌊q⌋ := Int.floor_nonneg.mpr hq
  simp only [roundHalfEven]
  split_ifs <;> omega

theorem groupThree_ne_nil : ∀ l : List Char, l ≠ [] → groupThree l ≠ [] := by
  intro l
  induction l using groupThree.induct <;> simp [groupThree]

theorem groupThree_len : ∀ l : List Char, ∀ c ∈ groupThree l, 1 ≤ c.length ∧ c.length ≤ 3 := by
  intro l
  induction l using groupThree.induct with
  | case1 => simp [groupThree]
  | case2 a => simp [groupThree]
  | case3 a b => simp [groupThree]
  | case4 a b c rest ih =>
    intro p hp
    rcases List.mem_cons.mp hp with hp | hp
    · simp [hp]
    · exact ih p hp

theorem groupThree_dropLast_len :
    ∀ l : List Char, ∀ c ∈ (groupThree l).dropLast, c.length = 3 := by
  intro l
  induction l using groupThree.induct with
  | case1 => simp [groupThree]
  | case2 a => simp [groupThree]
  | case3 a b => simp [groupThree]
  | case4 a b c rest ih =>
    intro p hp
    by_cases hr : rest = []
    · subst hr; simp [groupThree] at hp
    · rw [show groupThree (a :: b :: c :: rest) = [a, b, c] :: groupThree rest from rfl,
        List.dropLast_cons_of_ne_nil (groupThree_ne_nil rest hr)] at hp
      rcases List.mem_cons.mp hp with hp | hp
      · simp [hp]
      · exact ih p hp

theorem groupThree_chars :
    ∀ l : List Char, ∀ c ∈ groupThree l, ∀ ch ∈ c, ch ∈ l := by
  intro l
  induction l using groupThree.induct with
  | case1 => simp [groupThree]
  | case2 a => simp [groupThree]
  | case3 a b => simp [groupThree]
  | case4 a b c rest ih =>
    intro p hp ch hch
    rcases List.mem_cons.mp hp with hp | hp
    · subst hp
      simp at hch
      rcases hch with h | h | h <;> simp [h]
    · have := ih p hp ch hch
      simp [this]

theorem tail_reverse {α : Type} (l : List α) : l.reverse.tail = l.dropLast.reverse := by
  induction l using List.reverseRecOn with
  | nil => rfl
  | append_singleton xs a ih => simp

theorem intercalate_two (sep x y : List Char) (rest : List (List Char)) :
    List.intercalate sep (x :: y :: rest) = x ++ sep ++ List.intercalate sep (y :: rest) := by
  simp [List.intercalate, List.intersperse]

/-- A character of an intercalation comes from the separator or from one
of the parts. -/
theorem mem_intercalate (sep : List Char) :
    ∀ (parts : List (List Char)) (c : Char),
      c ∈ List.intercalate sep parts → c ∈ sep ∨ ∃ p ∈ parts, c ∈ p := by
  intro parts
  induction parts with
  | nil => intro c hc; simp [List.intercalate] at hc
  | cons x rest ih =>
    cases rest with
    | nil =>
      intro c hc
      simp [List.intercalate] at hc
      exact Or.inr ⟨x, by simp, hc⟩
    | cons y rest2 =>
      intro c hc
      rw [intercalate_two] at hc
      rcases List.mem_append.mp hc with h1 | h2
      · rcases List.mem_append.mp h1 with ha | hb
        · exact Or.inr ⟨x, by simp, ha⟩
        · exact Or.inl hb
      · rcases ih c h2 with h | ⟨p, hp, hcp⟩
        · exact Or.inl h
        · exact Or.inr ⟨p, by simp [hp], hcp⟩

/-- Exhausting all candidates falls back to the built-in default font. -/
theorem loadFontFrom_all_none (lookup : String → ℕ → Option Font) (size : ℕ) :
    ∀ l : List String, (∀ n ∈ l, lookup n size = none) →
      loadFontFrom lookup size l = Font.loadDefault := by
  intro l
  induction l with
  | nil => intro _; rfl
  | cons x xs ih =>
    intro h
    have hx : lookup x size = none := h x (by simp)
    simp only [loadFontFrom, hx]
    exact ih fun n hn => h n (by simp [hn])

/-- The first successful candidate lookup wins. -/
theorem loadFontFrom_first (lookup : String → ℕ → Option Font) (size : ℕ) :
    ∀ (pre : List String) (n : String) (rest : List String) (f : Font),
      (∀ m ∈ pre, lookup m size = none) → lookup n size = some f →
      loadFontFrom lookup size (pre ++ n :: rest) = f := by
  intro pre
  induction pre with
  | nil => intro n rest f _ hn; simp [loadFontFrom, hn]
  | cons x xs ih =>
    intro n rest f hpre hn
    have hx : lookup x size = none := hpre x (by simp)
    simp only [List.cons_append, loadFontFrom, hx]
    exact ih n rest f (fun m hm => hpre m (by simp [hm])) hn

/-- An environment in which every named-font lookup fails and text
measures as zero pixels wide. -/
def env0 : Env := ⟨fun _ _ => none, fun _ _ => 0, 11⟩

/-- Minimal arguments: empty collections, zero totals, derived date. -/
def args0 : ReportArgs := ⟨[], [], [], 0, 0, 0, 0, "out.png", none, "dark", none⟩

/-- Same as `args0` but with an explicitly supplied `prepared_date`. -/
def args1 : ReportArgs := ⟨[], [], [], 0, 0, 0, 0, "out.png", some "12/1/2025", "dark", none⟩

theorem roundHalfEven_zero : roundHalfEven 0 = 0 := by
  rw [show (0 : ℚ) = ((0 : ℤ) : ℚ) by norm_num]
  exact roundHalfEven_intCast 0

theorem fmt_currency_zero : fmt_currency 0 = "$0" := by
  simp only [fmt_currency, roundHalfEven_zero]
  norm_num
  simp [natDigits_def, commaGroup, groupThree, List.intercalate, List.intersperse, digitChar]
  decide

theorem pyFormat1f_zero : pyFormat1f 0 = "0.0" := by
  simp only [pyFormat1f, mul_zero, roundHalfEven_zero]
  norm_num
  simp [natDigits_def, digitChar]
  decide

theorem preparedDate_dec1 : resolvePreparedDate none ⟨12, 1, 2025⟩ = "12/1/2025" := by
  simp [resolvePreparedDate, natStr, natDigits_def, digitChar]
  decide

theorem preparedDate_dec2 : resolvePreparedDate none ⟨12, 2, 2025⟩ = "12/2/2025" := by
  simp [resolvePreparedDate, natStr, natDigits_def, digitChar]
  decide

/-- Claim C10: only the exact theme string "light" selects the light
palette; every other theme string (including "mockup" or misspellings)
silently selects the dark palette (dark-blue background, white body
text), and theme dispatch is total — no theme value is an error.  The
rendered canvas background is the selected palette's background. -/
theorem theme_selection :
    themePalette "light" =
      ⟨(255, 255, 255), (0, 0, 0), (0, 0, 0), (100, 100, 100), (0, 0, 0)⟩ ∧
    (∀ t : String, t ≠ "light" →
      themePalette t =
        ⟨(30, 50, 80), (100, 150, 255), (255, 255, 255), (150, 180, 220), (150, 180, 220)⟩) ∧
    (∀ (env : Env) (today : Date) (W H : ℕ) (args : ReportArgs),
      (renderCore env today W H args).returned.bg = (themePalette args.theme).bg_color) := by
  refine ⟨by simp [themePalette], fun t ht => by simp [themePalette, ht],
    fun env today W H args => ?_⟩
  simp [renderCore, renderAfter]

/-- Witness for C10: the unknown theme string "mockup" gets the dark palette. -/
theorem theme_selection_witness :
    themePalette "mockup" =
      ⟨(30, 50, 80), (100, 150, 255), (255, 255, 255), (150, 180, 220), (150, 180, 220)⟩ :=
  theme_selection.2.1 "mockup" (by decide)

/-- Claim C7: the font resolver tries the ordered candidate list in
sequence; an individual lookup failure silently falls through to the
next candidate; if every lookup fails it returns the guaranteed
built-in default font.  It is a total function — it never raises. -/
theorem font_fallback :
    (∀ (env : Env) (size : ℕ) (bold : Bool),
      (∀ n ∈ fontCandidates bold, env.lookup n size = none) →
      load_font env size bold = Font.loadDefault) ∧
    (∀ (env : Env) (size : ℕ) (bold : Bool) (pre : List String) (n : String)
        (rest : List String) (f : Font),
      fontCandidates bold = pre ++ n :: rest →
      (∀ m ∈ pre, env.lookup m size = none) →
      env.lookup n size = some f →
      load_font env size bold = f) := by
  constructor
  · intro env size bold h
    exact loadFontFrom_all_none env.lookup size (fontCandidates bold) h
  · intro env size bold pre n rest f hsplit hpre hn
    rw [load_font, hsplit]
    exact loadFontFrom_first env.lookup size pre n rest f hpre hn

/-- Witness for C7: with every lookup failing, the default font comes back. -/
theorem font_fallback_witness : load_font env0 32 false = Font.loadDefault :=
  font_fallback.1 env0 32 false fun _ _ => rfl

/-- Claim C3: a line item whose minimum equals its maximum renders a
single formatted amount; otherwise the two formatted values joined by a
hyphen surrounded by spaces; the amount text of every supplied line
item is drawn by the render. -/
theorem amount_range_collapsing :
    (∀ mn : ℚ, amountText mn mn = fmt_currency mn) ∧
    (∀ mn mx : ℚ, mn ≠ mx →
      amountText mn mx = fmt_currency mn ++ " - " ++ fmt_currency mx) ∧
    (∀ (env : Env) (today : Date) (W H : ℕ) (args : ReportArgs)
        (d : String) (mn mx : ℚ) (nt : String),
      (d, mn, mx, nt) ∈ args.line_items →
      amountText mn mx ∈ textsOf (renderCore env today W H args).returned.ops) := by
  refine ⟨fun mn => by simp [amountText], fun mn mx h => by simp [amountText, h], ?_⟩
  intro env today W H args d mn mx nt hmem
  rw [renderCore_texts]
  have hin : amountText mn mx ∈ args.line_items.flatMap itemTexts :=
    List.mem_flatMap.mpr ⟨(d, mn, mx, nt), hmem, by simp [itemTexts]⟩
  simp [hin]

/-- Witness for C3: distinct amounts render as a spaced range. -/
theorem amount_range_collapsing_witness :
    amountText 1 2 = fmt_currency 1 ++ " - " ++ fmt_currency 2 :=
  amount_range_collapsing.2.1 1 2 (by norm_num)

/-- Claim C1: each size variant renders onto (and returns) a canvas of
exactly that variant's fixed pixel dimensions; the saved image equals
the returned image and goes to the requested filename; the two size
profiles are distinct; and the mockup variant is exactly the source's
`generate_cierre_sensei_png`. -/
theorem render_size_profiles :
    (∀ (env : Env) (today : Date) (v : SizeVariant) (args : ReportArgs),
      (render env today v args).returned.width = (sizeDims v).1 ∧
      (render env today v args).returned.height = (sizeDims v).2 ∧
      (render env today v args).savedImg = (render env today v args).returned ∧
      (render env today v args).savedPath = args.filename) ∧
    sizeDims SizeVariant.print ≠ sizeDims SizeVariant.mockup ∧
    (∀ (env : Env) (today : Date) (args : ReportArgs),
      render env today SizeVariant.mockup args = generate_cierre_sensei_png env today args) := by
  refine ⟨?_, by decide, fun env today args => rfl⟩
  intro env today v args
  refine ⟨?_, ?_, ?_, ?_⟩ <;> simp [render, renderCore, renderAfter]

/-- Claim C9: a line-item tuple with three components (instead of the
four `desc, min_v, max_v, notes`) makes the render fail in the
fee-breakdown loop with an unpacking error — no image is returned. -/
theorem raw_line_item_arity_failure :
    renderRaw env0 ⟨12, 1, 2025⟩ 1800 2400 args0
      [[PyVal.pstr "Escrow", PyVal.pnum 750, PyVal.pnum 750]] =
    Except.error "ValueError: cannot unpack line item into desc, min_v, max_v, notes" := rfl

/-- Claim C8: with an explicitly supplied `prepared_date`, the render
does not depend on the current date at all — two calls with identical
inputs produce identical output; without it, the current-date default
can change the output across a day boundary. -/
theorem render_determinism :
    (∀ (env : Env) (W H : ℕ) (args : ReportArgs) (s : String) (t1 t2 : Date),
      args.prepared_date = some s →
      renderCore env t1 W H args = renderCore env t2 W H args) ∧
    renderCore env0 ⟨12, 1, 2025⟩ 1800 2400 args0 ≠
      renderCore env0 ⟨12, 2, 2025⟩ 1800 2400 args0 := by
  constructor
  · intro env W H args s t1 t2 hs
    simp [renderCore, renderAfter, resolvePreparedDate, hs]
  · intro h
    have h2 := congrArg (fun r => textsOf r.returned.ops) h
    simp only [renderCore_texts] at h2
    simp [args0, sponsorTexts, rangeText, rateText, fmt_currency_zero, pyFormat1f_zero,
      preparedDate_dec1, preparedDate_dec2] at h2

/-- Witness for C8: two renders of identical input with an explicit
`prepared_date` on different days agree. -/
theorem render_determinism_witness :
    renderCore env0 ⟨12, 1, 2025⟩ 1800 2400 args1 =
      renderCore env0 ⟨12, 2, 2025⟩ 1800 2400 args1 :=
  render_determinism.1 env0 1800 2400 args1 "12/1/2025" ⟨12, 1, 2025⟩ ⟨12, 2, 2025⟩ rfl

/-- A sublist stays a sublist under surrounding material. -/
theorem sublist_embed {α : Type} {l M : List α} (pre post : List α) (h : l.Sublist M) :
    l.Sublist (pre ++ (M ++ post)) :=
  ((h.trans (List.sublist_append_left M post)).trans (List.sublist_append_right pre _))

/-- The description of each fee line heads that line's text block, so the
descriptions in order form a sublist of the flattened block texts. -/
theorem map_fst_sublist_flatMap (l : List (String × ℚ × ℚ × String)) :
    (l.map fun it => it.1).Sublist (l.flatMap itemTexts) := by
  induction l with
  | nil => simp
  | cons x xs ih =>
    rw [List.map_cons, List.flatMap_cons]
    have h1 : (xs.flatMap itemTexts).Sublist
        ((amountText x.2.1 x.2.2.1 ::
          (if x.2.2.2 = "" then [] else ["(" ++ x.2.2.2 ++ ")"])) ++ xs.flatMap itemTexts) :=
      List.sublist_append_right _ _
    have h2 := List.Sublist.cons₂ x.1 (ih.trans h1)
    simpa [itemTexts] using h2

/-- Claim C4: the purchase-summary entries, the line items and the
add-ons are drawn in exactly the order supplied by the caller — the
drawn strings of each collection, in input order, form an
order-preserving sublist of the full drawn-text sequence. -/
theorem render_order :
    ∀ (env : Env) (today : Date) (W H : ℕ) (args : ReportArgs),
      (args.purchase_summary.map fun kv => kv.1 ++ ": " ++ kv.2).Sublist
        (textsOf (renderCore env today W H args).returned.ops) ∧
      (args.line_items.map fun it => it.1).Sublist
        (textsOf (renderCore env today W H args).returned.ops) ∧
      (args.addons.map fun a => "- " ++ a).Sublist
        (textsOf (renderCore env today W H args).returned.ops) := by
  intro env today W H args
  rw [renderCore_texts]
  refine ⟨?_, ?_, ?_⟩
  · exact (List.sublist_append_left _ _).cons _
  · exact ((((map_fst_sublist_flatMap args.line_items).trans
      (List.sublist_append_left _ _)).cons _).trans
      (List.sublist_append_right _ _)).cons _
  · exact (((((((List.sublist_append_left _ _).cons _).cons _).cons _).trans
      (List.sublist_append_right _ _)).cons _).trans
      (List.sublist_append_right _ _)).cons _

/-- Claim C6: a supplied `prepared_date` is used unchanged; an absent one
is derived from the current date as month/day/year with no zero padding
(the decimal rendering of each component has no leading zero), and the
resolved date is drawn in the footer. -/
theorem prepared_date_spec :
    (∀ (s : String) (t : Date), resolvePreparedDate (some s) t = s) ∧
    (∀ t : Date, resolvePreparedDate none t =
      natStr t.month ++ "/" ++ natStr t.day ++ "/" ++ natStr t.year) ∧
    (∀ n : ℕ, 0 < n → ∃ c l, natDigits n = c :: l ∧ c ≠ '0') ∧
    (∀ (env : Env) (today : Date) (W H : ℕ) (args : ReportArgs),
      ("Prepared: " ++ resolvePreparedDate args.prepared_date today) ∈
        textsOf (renderCore env today W H args).returned.ops) := by
  refine ⟨fun s t => rfl, fun t => rfl, natDigits_head, ?_⟩
  intro env today W H args
  rw [renderCore_texts]
  simp

/-- Witness for C6: the decimal rendering of 7 has a nonzero leading digit. -/
theorem prepared_date_spec_witness : ∃ c l, natDigits 7 = c :: l ∧ c ≠ '0' :=
  prepared_date_spec.2.2.1 7 (by norm_num)

theorem pyFormat1f_29_5 : pyFormat1f (29 / 5) = "5.8" := by
  have h : roundHalfEven (10 * (29 / 5)) = 58 := by
    rw [show (10 * (29 / 5) : ℚ) = ((58 : ℤ) : ℚ) by norm_num]
    exact roundHalfEven_intCast 58
  simp only [pyFormat1f, h]
  norm_num
  simp [natDigits_def, digitChar]
  decide

theorem pyFormat1f_7 : pyFormat1f 7 = "7.0" := by
  have h : roundHalfEven (10 * 7) = 70 := by
    rw [show (10 * 7 : ℚ) = ((70 : ℤ) : ℚ) by norm_num]
    exact roundHalfEven_intCast 70
  simp only [pyFormat1f, h]
  norm_num
  simp [natDigits_def, digitChar]
  decide

/-- Claim C2, counterexample: for inputs 5.8 and 7.0 the code's
effective-rate line reads "Effective Rate: 5.8% - 7.0%" — the label has
no " %" suffix and the separator is a plain hyphen, so the line is not
the claimed "Effective Rate %: 5.8% – 7.0%". -/
theorem rate_label_counterexample :
    rateText (29 / 5) 7 ≠ "Effective Rate %: 5.8% – 7.0%" ∧
    rateText (29 / 5) 7 = "Effective Rate: 5.8% - 7.0%" := by
  have h : rateText (29 / 5) 7 = "Effective Rate: 5.8% - 7.0%" := by
    rw [rateText, pyFormat1f_29_5, pyFormat1f_7]
    decide
  exact ⟨by rw [h]; decide, h⟩

/-- Claim C2 (amended): the effective-rate line is the label "Effective
Rate:" followed by the two percentages, each formatted with exactly one
decimal place and joined by a hyphen surrounded by spaces; input 5.8
renders as the text 5.8, and the line is drawn in the totals section. -/
theorem rate_line_format :
    (∀ mn mx : ℚ, rateText mn mx =
      "Effective Rate: " ++ pyFormat1f mn ++ "% - " ++ pyFormat1f mx ++ "%") ∧
    (∀ q : ℚ, ∃ s d, pyFormat1f q = s ++ "." ++ d ∧ d.length = 1 ∧
      (∀ c ∈ d.data, c.isDigit = true) ∧ '.' ∉ s.data) ∧
    pyFormat1f (29 / 5) = "5.8" ∧
    (∀ (env : Env) (today : Date) (W H : ℕ) (args : ReportArgs),
      rateText args.eff_min_pct args.eff_max_pct ∈
        textsOf (renderCore env today W H args).returned.ops) := by
  refine ⟨fun mn mx => rfl, ?_, pyFormat1f_29_5, ?_⟩
  · intro q
    refine ⟨(if roundHalfEven (10 * q) < 0 then "-" else "") ++
        (natDigits ((roundHalfEven (10 * q)).natAbs / 10)).asString,
      (natDigits ((roundHalfEven (10 * q)).natAbs % 10)).asString, ?_, ?_, ?_, ?_⟩
    · rw [pyFormat1f]
    · rw [natDigits_small (Nat.mod_lt _ (by norm_num))]
      rfl
    · intro c hc
      obtain ⟨d, hd, rfl⟩ := natDigits_mem _ c hc
      exact digitChar_isDigit d hd
    · intro hdot
      rw [String.data_append] at hdot
      rcases List.mem_append.mp hdot with h | h
      · split at h <;> simp_all
      · obtain ⟨d, hd, hc⟩ := natDigits_mem _ '.' h
        exact digitChar_ne_dot d hd hc.symm
  · intro env today W H args
    rw [renderCore_texts]
    simp

theorem natDigits_ne_nil (n : ℕ) : natDigits n ≠ [] := by
  rw [natDigits_def]
  split <;> simp

theorem map_dropLast {α β : Type} (f : α → β) :
    ∀ l : List α, (l.map f).dropLast = l.dropLast.map f := by
  intro l
  induction l with
  | nil => rfl
  | cons x xs ih =>
    cases xs with
    | nil => rfl
    | cons y t =>
      simp only [List.map_cons, List.dropLast_cons₂] at ih ⊢
      rw [ih]

/-- For a nonnegative amount, `fmt_currency` is a dollar sign followed by
nonempty digit groups joined by commas: every group has one to three
digit characters and every group but the leading one has exactly three
— thousands separators, zero decimal places. -/
theorem fmt_currency_nonneg_spec (q : ℚ) (hq : 0 ≤ q) :
    ∃ parts : List (List Char),
      parts ≠ [] ∧
      (∀ p ∈ parts, 1 ≤ p.length ∧ p.length ≤ 3 ∧ ∀ c ∈ p, c.isDigit = true) ∧
      (∀ p ∈ parts.tail, p.length = 3) ∧
      fmt_currency q = ('$' :: List.intercalate [','] parts).asString := by
  have hz : ¬ roundHalfEven q < 0 := not_lt.mpr (roundHalfEven_nonneg q hq)
  refine ⟨((groupThree (natDigits (roundHalfEven q).natAbs).reverse).map List.reverse).reverse,
    ?_, ?_, ?_, ?_⟩
  · simp only [ne_eq, List.reverse_eq_nil_iff, List.map_eq_nil_iff]
    exact groupThree_ne_nil _ (by simp [natDigits_ne_nil])
  · intro p hp
    rw [List.mem_reverse] at hp
    obtain ⟨c, hc, rfl⟩ := List.mem_map.mp hp
    obtain ⟨h1, h3⟩ := groupThree_len _ c hc
    refine ⟨by simpa using h1, by simpa using h3, ?_⟩
    intro ch hch
    rw [List.mem_reverse] at hch
    have hin := groupThree_chars _ c hc ch hch
    rw [List.mem_reverse] at hin
    obtain ⟨d, hd, rfl⟩ := natDigits_mem _ ch hin
    exact digitChar_isDigit d hd
  · intro p hp
    rw [tail_reverse, List.mem_reverse, map_dropLast] at hp
    obtain ⟨c, hc, rfl⟩ := List.mem_map.mp hp
    rw [List.length_reverse]
    exact groupThree_dropLast_len _ c hc
  · simp only [fmt_currency, commaGroup, hz, if_neg, if_false]

theorem fmt_currency_no_dot (q : ℚ) (hq : 0 ≤ q) : '.' ∉ (fmt_currency q).data := by
  obtain ⟨parts, _, hall, _, heq⟩ := fmt_currency_nonneg_spec q hq
  rw [heq]
  intro hdot
  have hdot2 : '.' ∈ ('$' :: List.intercalate [','] parts) := hdot
  rcases List.mem_cons.mp hdot2 with h | h
  · exact absurd h (by decide)
  · rcases mem_intercalate [','] parts '.' h with h2 | ⟨p, hp, hcp⟩
    · exact absurd h2 (by decide)
    · exact absurd ((hall p hp).2.2 '.' hcp) (by decide)

theorem fmt_currency_15000 : fmt_currency 15000 = "$15,000" := by
  have h : roundHalfEven 15000 = 15000 := by
    rw [show (15000 : ℚ) = ((15000 : ℤ) : ℚ) by norm_num]
    exact roundHalfEven_intCast 15000
  simp only [fmt_currency, h]
  norm_num
  simp [natDigits_def, commaGroup, groupThree, List.intercalate, List.intersperse, digitChar]
  decide

/-- Claim C5: monetary values render with a leading dollar sign,
thousands separators and zero decimal places; input 15000 renders as
exactly $15,000; the totals line is built from the same currency
formatter and is drawn by the render. -/
theorem currency_format :
    fmt_currency 15000 = "$15,000" ∧
    (∀ q : ℚ, 0 ≤ q → ∃ parts : List (List Char),
      parts ≠ [] ∧
      (∀ p ∈ parts, 1 ≤ p.length ∧ p.length ≤ 3 ∧ ∀ c ∈ p, c.isDigit = true) ∧
      (∀ p ∈ parts.tail, p.length = 3) ∧
      fmt_currency q = ('$' :: List.intercalate [','] parts).asString) ∧
    (∀ q : ℚ, 0 ≤ q → '.' ∉ (fmt_currency q).data) ∧
    (∀ mn mx : ℚ, rangeText mn mx =
      "Estimated Range: " ++ fmt_currency mn ++ " - " ++ fmt_currency mx) ∧
    (∀ (env : Env) (today : Date) (W H : ℕ) (args : ReportArgs),
      rangeText args.est_min args.est_max ∈
        textsOf (renderCore env today W H args).returned.ops) := by
  refine ⟨fmt_currency_15000, fmt_currency_nonneg_spec, fmt_currency_no_dot,
    fun mn mx => rfl, ?_⟩
  intro env today W H args
  rw [renderCore_texts]
  simp

/-- Witness for C5: the rendering of 15000 has no decimal point. -/
theorem currency_format_witness : '.' ∉ (fmt_currency 15000).data :=
  currency_format.2.2.1 15000 (by norm_num)

/-- On well-formed four-component tuples the raw render agrees with the
typed render: the unpacking in the fee loop only fails on malformed
tuples. -/
theorem renderRaw_encodes (env : Env) (today : Date) (W H : ℕ) (args : ReportArgs) :
    renderRaw env today W H args (args.line_items.map encodeItem) =
      Except.ok (renderCore env today W H args) := by
  rw [renderRaw, renderCore]
  have key : ∀ (l : List (String × ℚ × ℚ × String)) (st : ℤ × List DrawOp),
      (l.map encodeItem).foldlM
        (feeStepRaw env (load_font env 32 false) (load_font env 28 false)
          (themePalette args.theme)) st =
      Except.ok (l.foldl
        (feeStep env (load_font env 32 false) (load_font env 28 false)
          (themePalette args.theme)) st) := by
    intro l
    induction l with
    | nil => intro st; rfl
    | cons x xs ih =>
      intro st
      rw [List.map_cons, List.foldlM_cons]
      show Except.bind (feeStepRaw _ _ _ _ st (encodeItem x)) _ = _
      rw [show feeStepRaw env (load_font env 32 false) (load_font env 28 false)
            (themePalette args.theme) st (encodeItem x) =
          Except.ok (feeStep env (load_font env 32 false) (load_font env 28 false)
            (themePalette args.theme) st x) from rfl]
      exact ih _
  rw [key]
  rfl

/-- Witness for C1: the print profile yields a canvas of the print width. -/
theorem render_size_profiles_witness :
    (render env0 ⟨1, 1, 2020⟩ SizeVariant.print args0).returned.width =
      (sizeDims SizeVariant.print).1 :=
  (render_size_profiles.1 env0 ⟨1, 1, 2020⟩ SizeVariant.print args0).1

/-- Witness for C2: the rate line's label and joiner at concrete inputs. -/
theorem rate_line_format_witness :
    rateText 1 2 = "Effective Rate: " ++ pyFormat1f 1 ++ "% - " ++ pyFormat1f 2 ++ "%" :=
  rate_line_format.1 1 2

/-- Witness for C4: order preservation at a concrete argument record. -/
theorem render_order_witness :
    (args0.purchase_summary.map fun kv => kv.1 ++ ": " ++ kv.2).Sublist
      (textsOf (renderCore env0 ⟨1, 1, 2020⟩ 1800 2400 args0).returned.ops) :=
  (render_order env0 ⟨1, 1, 2020⟩ 1800 2400 args0).1

end CierreSensei
